import Mathlib

/-
  Verification development for the bank-reputation-damage-events ingestion
  pipeline.  The Lean definitions below are shallow embeddings of the Python
  source under src/: the normalization and materiality engine
  (src/ingestion/normalizers/mappings.py), the connector base class
  (src/ingestion/connectors/base.py), the BankFind enrichment connector
  (src/ingestion/connectors/ffiec_bankfind.py), the event repository
  (src/storage/repository.py) and the scheduler
  (src/ingestion/orchestrators/scheduler.py).
-/

namespace BankRep

/-! ## String helpers shared by the embedded functions

Python strings are modelled as Lean strings.  The source only ever
lowercases and substring-tests ASCII text, so the ASCII lowering below
coincides with the Python str.lower calls made by the code. -/

/-- ASCII lowering of one character, as Python str.lower acts on ASCII: the
codepoints 65 to 90 are the letters A to Z, shifted by 32 to a to z. -/
def lowerChar (c : Char) : Char :=
  if 65 ≤ c.toNat ∧ c.toNat ≤ 90 then Char.ofNat (c.toNat + 32) else c

/-- ASCII lowering of a string, modelling the Python lower() calls. -/
def pyLower (s : String) : String := ⟨s.data.map lowerChar⟩

/-- Does the first list occur at the head of the second list? -/
def startsWithList : List Char → List Char → Bool
  | [], _ => true
  | _ :: _, [] => false
  | p :: ps, c :: cs => p == c && startsWithList ps cs

/-- Does the first list occur as a contiguous sublist of the second?
Models the Python membership test pat in s on strings. -/
def isSubList (pat : List Char) : List Char → Bool
  | [] => pat.isEmpty
  | c :: cs => startsWithList pat (c :: cs) || isSubList pat cs

/-- Python pat in s on strings. -/
def strIn (pat s : String) : Bool := isSubList pat.data s.data

/-! ## Calendar dates (datetime.date) -/

/-- A calendar date, modelling Python datetime.date.  Comparison on
datetime.date is lexicographic on (year, month, day). -/
structure Date where
  year : Nat
  month : Nat
  day : Nat
deriving DecidableEq, Repr

/-- Lexicographic order on dates, as Python compares datetime.date values. -/
def dateLeB (a b : Date) : Bool :=
  a.year < b.year ||
    (a.year == b.year &&
      (a.month < b.month || (a.month == b.month && a.day ≤ b.day)))

/-- Left-pad the decimal rendering of a number with zeros to the given width. -/
def padNum (width n : Nat) : String :=
  let s := toString n
  String.mk (List.replicate (width - s.length) '0') ++ s

/-- Date.isoformat: YYYY-MM-DD. -/
def isoformat (d : Date) : String :=
  padNum 4 d.year ++ "-" ++ padNum 2 d.month ++ "-" ++ padNum 2 d.day

/-- calendar day count of a month, as used by Python date arithmetic. -/
def isLeapYear (y : Nat) : Bool :=
  (y % 4 == 0 && y % 100 != 0) || y % 400 == 0

def daysInMonth (y m : Nat) : Nat :=
  if m == 1 || m == 3 || m == 5 || m == 7 || m == 8 || m == 10 || m == 12 then 31
  else if m == 4 || m == 6 || m == 9 || m == 11 then 30
  else if isLeapYear y then 29 else 28

/-- The day before a date: models date - timedelta(days=1). -/
def prevDay (d : Date) : Date :=
  if 1 < d.day then { d with day := d.day - 1 }
  else if 1 < d.month then ⟨d.year, d.month - 1, daysInMonth d.year (d.month - 1)⟩
  else ⟨d.year - 1, 12, 31⟩

/-! ## CATEGORY_MAPPINGS and map_category
     (src/ingestion/normalizers/mappings.py, lines 11-125 and 278-286)

The Python dict iterates in insertion order, so it is embedded as an
association list in source order. -/

def CATEGORY_MAPPINGS : List (String × String) := [
  ("consent order", "regulatory_action"),
  ("cease and desist", "regulatory_action"),
  ("cease-and-desist", "regulatory_action"),
  ("order to cease and desist", "regulatory_action"),
  ("formal agreement", "regulatory_action"),
  ("written agreement", "regulatory_action"),
  ("memorandum of understanding", "regulatory_action"),
  ("enforcement action", "regulatory_action"),
  ("regulatory order", "regulatory_action"),
  ("civil money penalty", "fine"),
  ("civil monetary penalty", "fine"),
  ("monetary penalty", "fine"),
  ("financial penalty", "fine"),
  ("administrative penalty", "fine"),
  ("regulatory fine", "fine"),
  ("data breach", "data_breach"),
  ("data breach notice", "data_breach"),
  ("security breach", "data_breach"),
  ("cybersecurity incident", "data_breach"),
  ("privacy breach", "data_breach"),
  ("information security incident", "data_breach"),
  ("bank failure", "financial_performance"),
  ("bank closure", "financial_performance"),
  ("receivership", "financial_performance"),
  ("liquidation", "financial_performance"),
  ("bankruptcy", "financial_performance"),
  ("lawsuit", "lawsuit"),
  ("complaint", "lawsuit"),
  ("litigation", "lawsuit"),
  ("class action", "lawsuit"),
  ("legal action", "lawsuit"),
  ("court filing", "lawsuit"),
  ("fraud", "fraud"),
  ("fraudulent activity", "fraud"),
  ("financial fraud", "fraud"),
  ("banking fraud", "fraud"),
  ("outage", "operational_outage"),
  ("service disruption", "operational_outage"),
  ("system failure", "operational_outage"),
  ("technology failure", "technology_failure"),
  ("cyber attack", "technology_failure"),
  ("bsa violation", "sanctions_aml"),
  ("aml violation", "sanctions_aml"),
  ("anti-money laundering", "sanctions_aml"),
  ("sanctions violation", "sanctions_aml"),
  ("compliance failure", "compliance_failure"),
  ("discrimination", "discrimination"),
  ("fair lending violation", "discrimination"),
  ("redlining", "discrimination"),
  ("predatory lending", "predatory_practices"),
  ("executive misconduct", "executive_misconduct"),
  ("executive resignation", "executive_misconduct"),
  ("ceo scandal", "executive_misconduct"),
  ("management misconduct", "executive_misconduct"),
  ("environmental controversy", "esg_controversy"),
  ("greenwashing", "esg_controversy"),
  ("labor dispute", "labor_dispute"),
  ("strike", "labor_dispute"),
  ("mass layoff", "labor_dispute"),
  ("customer service failure", "customer_service_crisis"),
  ("service crisis", "customer_service_crisis"),
  ("customer complaint", "customer_service_crisis"),
  ("governance issue", "governance_issue"),
  ("board controversy", "governance_issue"),
  ("shareholder activism", "governance_issue"),
  ("proxy battle", "governance_issue"),
  ("market manipulation", "market_manipulation"),
  ("insider trading", "market_manipulation"),
  ("securities fraud", "market_manipulation"),
  ("investigation", "investigation"),
  ("probe", "investigation"),
  ("inquiry", "investigation"),
  ("examination", "investigation"),
  ("marketing controversy", "brand_marketing"),
  ("brand crisis", "brand_marketing"),
  ("pr crisis", "brand_marketing"),
  ("public relations crisis", "brand_marketing"),
  ("partnership failure", "partnership_failure"),
  ("vendor scandal", "partnership_failure"),
  ("fintech partnership failure", "partnership_failure")]

/-- The for-loop body of map_category: return the category of the first
pattern of the dictionary that occurs in the lowered text. -/
def lookupFirstSub : List (String × String) → String → Option String
  | [], _ => none
  | (pat, cat) :: rest, sLower =>
      if strIn pat sLower then some cat else lookupFirstSub rest sLower

/-- map_category (mappings.py lines 278-286). -/
def map_category (source_text : String) : String :=
  match lookupFirstSub CATEGORY_MAPPINGS (pyLower source_text) with
  | some cat => cat
  | none => "other"

/-- Modelled from the spec: the longest-match-first lookup the spec describes
for map_category, used to compare the spec wording with the code.  Among the
dictionary patterns occurring as substrings of the lowered input it picks one
of maximal length and returns its category. -/
def longestCategoryMatch (maps : List (String × String)) (sLower : String) :
    Option (String × String) :=
  maps.foldl
    (fun best pc =>
      if strIn pc.1 sLower then
        match best with
        | some best' => if best'.1.length < pc.1.length then some pc else best
        | none => some pc
      else best)
    none

/-- Modelled from the spec: map_category as the spec words it
(longest-match-first substring lookup, unmatched input maps to other). -/
def specMapCategoryLongest (source_text : String) : String :=
  match longestCategoryMatch CATEGORY_MAPPINGS (pyLower source_text) with
  | some pc => pc.2
  | none => "other"

/-! ## Materiality scoring
     (src/ingestion/normalizers/mappings.py, lines 230-275 and 315-350)

calculate_materiality_score receives a nested dict.  The embedding fixes the
shape actually read by the rules: the four field paths amounts.penalties_usd,
reputational_damage.drivers.customers_affected, categories and title.  A
missing key makes the navigated value the empty string, on which every
operator of the rules evaluates to false; this is modelled by Option none. -/

structure EventData where
  penalties_usd : Option Int := none
  customers_affected : Option Int := none
  categories : Option (List String) := none
  title : Option String := none

/-- One condition of MATERIALITY_RULES: a field path together with its
operator and comparison value, specialised to the four field paths and three
operators that appear in the rule table. -/
inductive Cond where
  | gePenalties (v : Int)
  | geCustomers (v : Int)
  | categoriesContains (s : String)
  | titleContainsAny (l : List String)

/-- MATERIALITY_RULES (mappings.py lines 230-275), in source order. -/
def MATERIALITY_RULES : List (Nat × List Cond) := [
  (5, [Cond.gePenalties 1000000000,
       Cond.geCustomers 5000000,
       Cond.categoriesContains "financial_performance",
       Cond.titleContainsAny ["congressional hearing", "ceo resignation scandal"]]),
  (4, [Cond.gePenalties 100000000,
       Cond.geCustomers 1000000,
       Cond.titleContainsAny ["mass layoff", "esg controversy", "sustained negative press"]]),
  (3, [Cond.gePenalties 10000000,
       Cond.geCustomers 100000,
       Cond.titleContainsAny ["significant outage", "workforce reduction", "multiple state ag"]]),
  (2, [Cond.gePenalties 1000000,
       Cond.geCustomers 10000,
       Cond.titleContainsAny ["executive misconduct", "branch closure", "fintech partnership failure"]]),
  (1, [Cond.titleContainsAny ["investigation", "discrimination allegation", "customer service failure"]])]

/-- Evaluate one condition against the event data, following the operator
dispatch of calculate_materiality_score: a ge comparison succeeds only on a
numeric field value, contains on the categories list is list membership, and
contains_any checks each keyword as a substring of the lowered title. -/
def evalCond (d : EventData) : Cond → Bool
  | Cond.gePenalties v =>
      match d.penalties_usd with
      | some n => v ≤ n
      | none => false
  | Cond.geCustomers v =>
      match d.customers_affected with
      | some n => v ≤ n
      | none => false
  | Cond.categoriesContains s =>
      match d.categories with
      | some l => l.contains s
      | none => false
  | Cond.titleContainsAny l =>
      match d.title with
      | some t => l.any (fun v => strIn v (pyLower t))
      | none => false

/-- The inner condition loop: return the rule score at the first satisfied
condition. -/
def condLoop (d : EventData) (score : Nat) : List Cond → Option Nat
  | [] => none
  | c :: rest => if evalCond d c then some score else condLoop d score rest

/-- The outer rule loop of calculate_materiality_score. -/
def ruleLoop (d : EventData) : List (Nat × List Cond) → Option Nat
  | [] => none
  | (s, conds) :: rest =>
      match condLoop d s conds with
      | some k => some k
      | none => ruleLoop d rest

/-- calculate_materiality_score (mappings.py lines 315-350): first satisfied
condition of the highest-score rule wins, default 1. -/
def calculate_materiality_score (d : EventData) : Nat :=
  (ruleLoop d MATERIALITY_RULES).getD 1

/-! ## Money extraction (mappings.py lines 354-398)

The three MONEY_PATTERNS regexes are translated fragment by fragment into
backtracking matchers.  A matcher maps an input suffix to the list of lengths
it can consume, in backtracking priority order (head preferred), which is
exactly the order a leftmost-greedy regex engine explores alternatives. -/

def RegexMatcher : Type := List Char → List Nat

/-- A single character from a class. -/
def reChar (p : Char → Bool) : RegexMatcher := fun s =>
  match s with
  | [] => []
  | c :: _ => if p c then [1] else []

/-- A literal word matched case-insensitively (the patterns are compiled with
IGNORECASE); the literal is given in lowercase. -/
def reLitAux : List Char → List Char → List Nat
  | [], _ => [0]
  | _ :: _, [] => []
  | l :: ls, c :: cs => if lowerChar c == l then (reLitAux ls cs).map (· + 1) else []

def reLit (lit : String) : RegexMatcher := fun s => reLitAux lit.data s

/-- Sequencing; priority order is inherited left-major, matching
backtracking preference. -/
def reSeq (a b : RegexMatcher) : RegexMatcher := fun s =>
  (a s).flatMap (fun n => (b (s.drop n)).map (n + ·))

/-- Alternation in source order. -/
def reAlt (a b : RegexMatcher) : RegexMatcher := fun s => a s ++ b s

/-- Greedy option: prefer consuming the fragment. -/
def reOpt (a : RegexMatcher) : RegexMatcher := fun s => a s ++ [0]

/-- Length of the maximal run of characters satisfying p. -/
def runLen (p : Char → Bool) : List Char → Nat
  | [] => 0
  | c :: cs => if p c then runLen p cs + 1 else 0

/-- Greedy star over a character class: longest first. -/
def reStar (p : Char → Bool) : RegexMatcher := fun s =>
  (List.range (runLen p s + 1)).reverse

/-- Greedy plus over a character class: longest first, at least one. -/
def rePlus (p : Char → Bool) : RegexMatcher := fun s =>
  ((List.range (runLen p s + 1)).reverse).filter (fun n => n ≠ 0)

def digitOrComma (c : Char) : Bool := c.isDigit || c == ','

/-- The Python whitespace class backslash-s on ASCII text. -/
def wsChar (c : Char) : Bool :=
  c == ' ' || c == '\t' || c == '\n' || c == '\r' || c == '\x0b' || c == '\x0c'

/-- The optional fragment of a decimal point followed by two digits. -/
def reDecimals : RegexMatcher :=
  reOpt (reSeq (reChar (· == '.')) (reSeq (reChar Char.isDigit) (reChar Char.isDigit)))

/-- The unit alternation million, billion, thousand, k, m, b in source order. -/
def reUnit : RegexMatcher :=
  reAlt (reLit "million") (reAlt (reLit "billion") (reAlt (reLit "thousand")
    (reAlt (reLit "k") (reAlt (reLit "m") (reLit "b")))))

/-- First entry of MONEY_PATTERNS: a dollar sign, digits and commas, optional
decimals, optionally whitespace and a unit word. -/
def moneyPattern1 : RegexMatcher :=
  reSeq (reChar (· == '$'))
    (reSeq (rePlus digitOrComma)
      (reSeq reDecimals (reOpt (reSeq (reStar wsChar) reUnit))))

/-- Second entry of MONEY_PATTERNS: digits and commas, optional decimals,
whitespace, a unit word, whitespace, optionally dollars or usd. -/
def moneyPattern2 : RegexMatcher :=
  reSeq (rePlus digitOrComma)
    (reSeq reDecimals
      (reSeq (reStar wsChar)
        (reSeq reUnit
          (reSeq (reStar wsChar)
            (reOpt (reAlt (reSeq (reLit "dollar") (reOpt (reLit "s"))) (reLit "usd")))))))

/-- Third entry of MONEY_PATTERNS: penalty, fine, settlement or payment,
whitespace, optionally of, an optional dollar sign, digits and commas,
optional decimals. -/
def moneyPattern3 : RegexMatcher :=
  reSeq (reAlt (reLit "penalty") (reAlt (reLit "fine")
      (reAlt (reLit "settlement") (reLit "payment"))))
    (reSeq (reStar wsChar)
      (reSeq (reOpt (reSeq (reLit "of") (reStar wsChar)))
        (reSeq (reOpt (reChar (· == '$')))
          (reSeq (rePlus digitOrComma) reDecimals))))

def MONEY_PATTERNS : List RegexMatcher := [moneyPattern1, moneyPattern2, moneyPattern3]

/-- re.findall: scan left to right, take the leftmost match with its
preferred length, continue after it.  None of the three patterns matches the
empty string, so every returned match consumes at least one character. -/
def findAllAux (p : RegexMatcher) : Nat → List Char → List (List Char)
  | _, [] => []
  | 0, _ :: _ => []
  | fuel + 1, c :: cs =>
      match (p (c :: cs)).head? with
      | some n => (c :: cs).take n :: findAllAux p fuel (cs.drop (n - 1))
      | none => findAllAux p fuel cs

/-- The fuel starts at the text length; every step continues on a strictly
shorter suffix, so the fuel never runs out. -/
def findAll (p : RegexMatcher) (text : String) : List String :=
  (findAllAux p text.data.length text.data).map List.asString

/-- The number regex of normalize_money_to_usd: digits, then optionally a
point and two digits. -/
def numberRe : RegexMatcher := reSeq (rePlus Char.isDigit) reDecimals

/-- re.search: the match at the leftmost position where the pattern
matches. -/
def searchFirst (p : RegexMatcher) : List Char → Option (List Char)
  | [] =>
      match (p []).head? with
      | some _ => some []
      | none => none
  | c :: cs =>
      match (p (c :: cs)).head? with
      | some n => some ((c :: cs).take n)
      | none => searchFirst p cs

/-- Decimal value of a digit string. -/
def digitsVal (l : List Char) : Nat :=
  l.foldl (fun acc c => 10 * acc + (c.toNat - 48)) 0

/-- Value of a numberRe match in integer hundredths: the fractional part,
when present, has exactly two digits.  Python parses the number through
float and multiplies; on every value this development evaluates the float
arithmetic is exact, so exact integer hundredths model it faithfully (a
decimal the binary float cannot represent could differ in the last unit). -/
def numCents (cs : List Char) : Nat :=
  let ip := cs.takeWhile Char.isDigit
  let rest := cs.drop ip.length
  let frac := (rest.drop 1).takeWhile Char.isDigit
  digitsVal ip * 100 + (if rest = [] then 0 else digitsVal frac)

/-- normalize_money_to_usd (mappings.py lines 378-398): lowercase, drop
dollar signs and commas, find the first number, apply the unit multiplier
found anywhere in the cleaned text, truncate to an integer.  The values are
non-negative, so Python int() truncation is the floor, which on hundredths
is division by 100. -/
def normalize_money_to_usd (amount_text : String) : Int :=
  let clean_text : String := ⟨(pyLower amount_text).data.filter (fun c => !(c == '$' || c == ','))⟩
  match searchFirst numberRe clean_text.data with
  | none => 0
  | some numChars =>
      let cents := numCents numChars
      let cents :=
        if strIn "billion" clean_text || strIn "b" clean_text then cents * 1000000000
        else if strIn "million" clean_text || strIn "m" clean_text then cents * 1000000
        else if strIn "thousand" clean_text || strIn "k" clean_text then cents * 1000
        else cents
      Int.ofNat (cents / 100)

/-- Python str.strip with a set of characters: drop members of the set from
both ends. -/
def stripChars (cset : List Char) (s : String) : String :=
  let l := s.data.dropWhile (fun c => cset.contains c)
  ⟨(l.reverse.dropWhile (fun c => cset.contains c)).reverse⟩

/-- extract_money_amounts (mappings.py lines 361-375): for every pattern and
every match, append the match and a separator to the audit text and add its
normalized value to the running total; finally strip separators from the
audit text. -/
def extract_money_amounts (text : String) : Int × String :=
  let r := MONEY_PATTERNS.foldl
    (fun acc p =>
      (findAll p text).foldl
        (fun st m => (st.1 + normalize_money_to_usd m, st.2 ++ m ++ "; ")) acc)
    (0, "")
  (r.1, stripChars [';', ' '] r.2)

/-! ## generate_event_id (base.py lines 149-163) -/

/-- The character class of the substitution regex: ASCII alphanumerics, by
codepoint ranges (97-122 lowercase, 65-90 uppercase, 48-57 digits). -/
def isAsciiAlnum (c : Char) : Bool :=
  (97 ≤ c.toNat && c.toNat ≤ 122) || (65 ≤ c.toNat && c.toNat ≤ 90) ||
    (48 ≤ c.toNat && c.toNat ≤ 57)

/-- re.sub replacing every character outside the class with a hyphen. -/
def subNonAlnum (l : List Char) : List Char :=
  l.map (fun c => if isAsciiAlnum c then c else '-')

/-- re.sub collapsing runs of hyphens to a single hyphen: drop a hyphen
whenever the next character is also a hyphen, keeping one per maximal run. -/
def collapseHyphens : List Char → List Char
  | [] => []
  | [c] => [c]
  | a :: b :: rest =>
      if a == '-' && b == '-' then collapseHyphens (b :: rest)
      else a :: collapseHyphens (b :: rest)

/-- str.strip of the hyphen character. -/
def stripHyphens (l : List Char) : List Char :=
  let t := l.dropWhile (fun c => c == '-')
  (t.reverse.dropWhile (fun c => c == '-')).reverse

/-- generate_event_id (base.py lines 149-163): build the colon-joined base
from source name, external id and the iso date, lowercase it, replace
non-alphanumerics by hyphens, collapse hyphen runs, strip edge hyphens. -/
def generate_event_id (source_name external_id : String) (event_date : Date) : String :=
  let base := source_name ++ ":" ++ external_id ++ ":" ++ isoformat event_date
  let kebab := subNonAlnum (pyLower base).data
  let kebab := collapseHyphens kebab
  ⟨stripHyphens kebab⟩

/-! ## The retry layer around _make_request (base.py lines 55-88) -/

/-- Outcome of one HTTP attempt: a response with a status code, or a network
failure (timeout, connection reset). -/
inductive HttpOutcome where
  | resp (status : Nat)
  | netError
deriving DecidableEq, Repr

/-- Result of the retried request: a successful response, or the error
tenacity raises once the attempt bound is reached, carrying the last
attempt's outcome. -/
inductive RequestResult where
  | success (status : Nat)
  | exhausted (last : HttpOutcome)
deriving DecidableEq, Repr

/-- httpx raise_for_status: any non-2xx response raises HTTPStatusError. -/
def raisesStatus (status : Nat) : Bool := !(200 ≤ status && status < 300)

/-- The tenacity loop around _make_request.  The decorator is
retry(stop=stop_after_attempt(3), wait=wait_exponential(...)); its default
retry predicate retries on every exception, and every branch of the except
clauses in _make_request re-raises, so each failed attempt is retried until
the attempt bound is reached, whatever the status code.  The oracle gives the
outcome of each numbered attempt; remaining counts the attempts still
allowed, and the returned number is the attempt on which the loop ended. -/
def tenacityGo (o : Nat → HttpOutcome) : Nat → Nat → RequestResult × Nat
  | 0, attempt => (RequestResult.exhausted (o (attempt - 1)), attempt - 1)
  | remaining + 1, attempt =>
      match o attempt with
      | HttpOutcome.resp s =>
          if raisesStatus s then
            if remaining = 0 then (RequestResult.exhausted (HttpOutcome.resp s), attempt)
            else tenacityGo o remaining (attempt + 1)
          else (RequestResult.success s, attempt)
      | HttpOutcome.netError =>
          if remaining = 0 then (RequestResult.exhausted HttpOutcome.netError, attempt)
          else tenacityGo o remaining (attempt + 1)

/-- _make_request under its retry decorator, with stop_after_attempt(3). -/
def make_request (o : Nat → HttpOutcome) : RequestResult × Nat :=
  tenacityGo o 3 1

/-! ## fetch_updates (base.py lines 110-147)

The per-item pipeline stages are oracles: each stage either returns a value
or raises (Except.error).  fetch_updates catches any exception raised for a
single item inside the loop and continues with the next item. -/

structure ConnectorOps (Item Raw Parsed Ev : Type) where
  discover : Except String (List Item)
  fetch_item_detail : Item → Except String Raw
  parse_item : Raw → Except String Parsed
  normalize_item : Parsed → Except String Ev

/-- The body of the try block of the per-item loop: fetch detail, parse,
normalize. -/
def itemStep {I R P E : Type} (ops : ConnectorOps I R P E) (it : I) : Except String E :=
  (ops.fetch_item_detail it).bind (fun d => (ops.parse_item d).bind ops.normalize_item)

/-- The per-item loop: an exception from any stage of one item is caught and
the loop continues with the remaining items. -/
def itemLoop {I R P E : Type} (ops : ConnectorOps I R P E) : List I → List E
  | [] => []
  | it :: rest =>
      match itemStep ops it with
      | Except.ok e => e :: itemLoop ops rest
      | Except.error _ => itemLoop ops rest

/-- fetch_updates: discover, then run the per-item loop; a discovery failure
propagates to the caller. -/
def fetch_updates {I R P E : Type} (ops : ConnectorOps I R P E) : Except String (List E) :=
  match ops.discover with
  | Except.ok items => Except.ok (itemLoop ops items)
  | Except.error msg => Except.error msg

/-! ## The canonical Event model (src/ingestion/normalizers/events_model.py)

The Lean Event structure carries the fields of the pydantic Event model that
the verified code paths read; the amounts dict is modelled by its numeric
entries.  model_dump_json is modelled by serializeEvent, a deterministic
rendering of all modelled fields in declaration order; the repository only
ever compares payloads for equality. -/

structure SourceRef where
  title : String
  publisher : String
  url : String
  date_published : Date
  source_type : String
deriving DecidableEq, Repr

structure ReputationalDrivers where
  fine_usd : Option Int := some 0
  customers_affected : Option Int := none
  service_disruption_hours : Option Int := none
  executive_changes : Bool := false
  litigation_status : String := "none"
  regulator_involved : List String := []
deriving DecidableEq, Repr

structure ReputationalDamage where
  nature : List String
  materiality_score : Nat
  drivers : ReputationalDrivers
deriving DecidableEq, Repr

structure Event where
  event_id : String
  title : String
  institutions : List String
  categories : List String
  event_date : Date
  summary : String := ""
  reputational_damage : ReputationalDamage
  amounts : List (String × Int) := []
  sources : List SourceRef := []
deriving DecidableEq, Repr

/-- Python dict get with a default, on the amounts mapping. -/
def amountsGet (amounts : List (String × Int)) (key : String) (dflt : Int) : Int :=
  match amounts.find? (fun kv => kv.1 == key) with
  | some kv => kv.2
  | none => dflt

/-- Rendering of an optional integer field for the serialization. -/
def showOptInt : Option Int → String
  | some i => "some " ++ toString i
  | none => "none"

/-- Rendering of a boolean field for the serialization. -/
def showBool : Bool → String
  | true => "true"
  | false => "false"

def serializeSourceRef (s : SourceRef) : String :=
  s.title ++ "|" ++ s.publisher ++ "|" ++ s.url ++ "|" ++
    isoformat s.date_published ++ "|" ++ s.source_type

def serializeDrivers (d : ReputationalDrivers) : String :=
  showOptInt d.fine_usd ++ "|" ++ showOptInt d.customers_affected ++ "|" ++
    showOptInt d.service_disruption_hours ++ "|" ++ showBool d.executive_changes ++ "|" ++
    d.litigation_status ++ "|" ++ String.intercalate "," d.regulator_involved

/-- Deterministic serialization of an Event, modelling
Event.model_dump_json: all modelled fields rendered in declaration order. -/
def serializeEvent (e : Event) : String :=
  e.event_id ++ "#" ++ e.title ++ "#" ++ String.intercalate "," e.institutions ++ "#" ++
    String.intercalate "," e.categories ++ "#" ++ isoformat e.event_date ++ "#" ++
    e.summary ++ "#" ++ String.intercalate "," e.reputational_damage.nature ++ "#" ++
    toString e.reputational_damage.materiality_score ++ "#" ++
    serializeDrivers e.reputational_damage.drivers ++ "#" ++
    String.intercalate "," (e.amounts.map (fun kv => kv.1 ++ "=" ++ toString kv.2)) ++ "#" ++
    String.intercalate ";" (e.sources.map serializeSourceRef)

/-! ## The event repository (src/storage/repository.py)

The events and sources tables are modelled as lists of rows; wall-clock
timestamp columns (created_at, updated_at) are not modelled.  The events
table keeps the full payload plus the denormalized filter columns written at
insert time. -/

structure EventRow where
  event_id : String
  payload : String
  event_date : Date
  categories : List String
  regulators : List String
  penalties_usd : Int
  customers_affected : Option Int
deriving DecidableEq, Repr

structure SourceRow where
  event_id : String
  url : String
  title : String
  publisher : String
  date_published : Date
  source_type : String
deriving DecidableEq, Repr

structure RepoState where
  events : List EventRow
  sources : List SourceRow
deriving DecidableEq, Repr

/-- SELECT payload FROM events WHERE event_id = ?. -/
def lookupPayload (st : RepoState) (eid : String) : Option String :=
  (st.events.find? (fun r => r.event_id == eid)).map (fun r => r.payload)

/-- _upsert_sources (repository.py lines 133-151): delete every sources row
of the event, then insert the new rows. -/
def upsert_sources (st : RepoState) (eid : String) (srcs : List SourceRef) : RepoState :=
  { st with
    sources :=
      st.sources.filter (fun s => !(s.event_id == eid)) ++
        srcs.map (fun s => ⟨eid, s.url, s.title, s.publisher, s.date_published, s.source_type⟩) }

/-- The events row written by the INSERT branch of upsert_event
(repository.py lines 106-119). -/
def rowOfEvent (e : Event) : EventRow :=
  ⟨e.event_id, serializeEvent e, e.event_date, e.categories,
    e.reputational_damage.drivers.regulator_involved,
    amountsGet e.amounts "penalties_usd" 0,
    e.reputational_damage.drivers.customers_affected⟩

/-- upsert_event (repository.py lines 73-131).  Look up the stored payload;
identical payload is a no-op returning false; a differing payload takes the
UPDATE branch, which rewrites only the payload column (the denormalized
columns keep their insert-time values); an absent id takes the INSERT branch
writing the full row.  Both write branches then wholesale-replace the
sources rows and return true. -/
def upsert_event (st : RepoState) (e : Event) : Bool × RepoState :=
  match st.events.find? (fun r => r.event_id == e.event_id) with
  | some row =>
      if row.payload == serializeEvent e then (false, st)
      else
        let evs := st.events.map (fun r =>
          if r.event_id == e.event_id then { r with payload := serializeEvent e } else r)
        (true, upsert_sources ⟨evs, st.sources⟩ e.event_id e.sources)
  | none =>
      (true, upsert_sources ⟨st.events ++ [rowOfEvent e], st.sources⟩ e.event_id e.sources)

/-- The scalar aggregates of get_statistics (repository.py lines 260-319):
COUNT over the events table and SUM over its penalties_usd column. -/
structure Stats where
  total_events : Nat
  total_penalties_usd : Int
deriving DecidableEq, Repr

def get_statistics (st : RepoState) : Stats :=
  ⟨st.events.length, (st.events.map (fun r => r.penalties_usd)).sum⟩

/-- The category histogram of get_statistics: the SQL groups events rows by
their categories text and, for each occurrence of a category in the decoded
list, adds the group size to that category's counter.  Summed out, a
category's total is the number of occurrences of it across the stored
categories columns, counting a row once per occurrence (a duplicated entry
in one row counts twice). -/
def category_distribution (st : RepoState) (c : String) : Nat :=
  (st.events.map (fun r => r.categories.count c)).sum

/-- The regulator histogram of get_statistics, accumulated the same way from
the regulators column: one count per occurrence in each decoded list. -/
def regulator_distribution (st : RepoState) (g : String) : Nat :=
  (st.events.map (fun r => r.regulators.count g)).sum

/-- Fold upserting a list of events, as a run of the pipeline would. -/
def insertAll (evs : List Event) (st : RepoState) : RepoState :=
  evs.foldl (fun s e => (upsert_event s e).2) st

/-! ## BankFind enrichment (src/ingestion/connectors/ffiec_bankfind.py,
lines 200-246) -/

/-- The identifier fields the BankFind search returns for an institution. -/
structure BankData where
  cert : Option String := none
  rssd : Option String := none
  lei : Option String := none
  primary_regulator : Option String := none
  state : Option String := none
  active : Option String := none
  website : Option String := none
deriving DecidableEq, Repr

/-- One entry of the enriched_institutions list the enrichment loop builds. -/
structure EnrichedInstitution where
  name : String
  found : Option BankData
deriving DecidableEq, Repr

/-- _enrich_event_institutions_async: look up each institution name through
the search oracle and build the enriched list, then return the event.  The
source builds the list, logs it and returns the event unchanged (the Event
model has no field to hold the identifiers). -/
def enrich_event_institutions_async (lookup : String → Option BankData) (e : Event) : Event :=
  let _enriched : List EnrichedInstitution :=
    e.institutions.map (fun nm =>
      match lookup nm with
      | some bd => ⟨nm, some bd⟩
      | none => ⟨nm, none⟩)
  e

/-! ## The scheduler (src/ingestion/orchestrators/scheduler.py)

A connector in a run is modelled by its name and the outcome of its
fetch_updates call (a list of events, or the exception it raised).  The
store loop additionally returns the trace of events passed to
repository.upsert_event, so that what was stored can be stated. -/

structure ConnectorRun where
  name : String
  fetched : Except String (List Event)

structure ConnReport where
  events_fetched : Nat
  events_in_period : Nat
  events_stored : Nat
  statusSuccess : Bool
deriving DecidableEq, Repr

/-- First day of the requested month (scheduler.py line 148). -/
def backfillStart (year month : Nat) : Date := ⟨year, month, 1⟩

/-- Last day of the requested month (scheduler.py lines 149-152). -/
def backfillEnd (year month : Nat) : Date :=
  if month = 12 then prevDay ⟨year + 1, 1, 1⟩ else prevDay ⟨year, month + 1, 1⟩

/-- The month filter of run_monthly_backfill (scheduler.py lines 173-176). -/
def inPeriod (startD endD : Date) (e : Event) : Bool :=
  dateLeB startD e.event_date && dateLeB e.event_date endD

/-- The per-event store loop shared by the scheduler runs (scheduler.py
lines 179-198): enrich each event through BankFind, upsert it, count the
calls that wrote.  The third component is the trace of events passed to
upsert_event. -/
def storeLoop (lookup : String → Option BankData) :
    RepoState → List Event → Nat × RepoState × List Event
  | st, [] => (0, st, [])
  | st, ev :: rest =>
      let ev' := enrich_event_institutions_async lookup ev
      let up := upsert_event st ev'
      let rst := storeLoop lookup up.2 rest
      ((if up.1 then 1 else 0) + rst.1, rst.2.1, ev' :: rst.2.2)

/-- The connector loop of run_monthly_backfill (scheduler.py lines 162-223):
skip the enrichment-only BankFind connector, record an error report for a
connector whose fetch raised, and otherwise filter the fetched events to the
requested month, store the filtered subset and record the report row. -/
def backfillGo (lookup : String → Option BankData) (startD endD : Date) :
    RepoState → List ConnectorRun →
      List (String × ConnReport) × RepoState × List Event
  | st, [] => ([], st, [])
  | st, c :: rest =>
      if c.name == "ffiec_bankfind" then backfillGo lookup startD endD st rest
      else
        match c.fetched with
        | Except.error _ =>
            let rst := backfillGo lookup startD endD st rest
            ((c.name, ⟨0, 0, 0, false⟩) :: rst.1, rst.2.1, rst.2.2)
        | Except.ok evs =>
            let month_events := evs.filter (inPeriod startD endD)
            let sl := storeLoop lookup st month_events
            let rst := backfillGo lookup startD endD sl.2.1 rest
            ((c.name, ⟨evs.length, month_events.length, sl.1, true⟩) :: rst.1, rst.2.1,
              sl.2.2 ++ rst.2.2)

/-- run_monthly_backfill (scheduler.py lines 141-229), reduced to its
per-connector reports, the final repository state and the trace of events
passed to upsert_event. -/
def run_monthly_backfill (lookup : String → Option BankData) (year month : Nat)
    (conns : List ConnectorRun) (st : RepoState) :
    List (String × ConnReport) × RepoState × List Event :=
  backfillGo lookup (backfillStart year month) (backfillEnd year month) st conns

/-! ## Auxiliary decidable checks used by the theorems -/

/-- Does the character list contain two adjacent hyphens? -/
def hasDoubleHyphen : List Char → Bool
  | [] => false
  | [_] => false
  | a :: b :: rest => (a == '-' && b == '-') || hasDoubleHyphen (b :: rest)

/-! ## Concrete fixtures used by witnesses and counterexamples -/

/-- A concrete event shaped like the FDIC connector test fixture. -/
def sampleEvent : Event :=
  { event_id := "fdic-edo-2024-001-2024-01-15"
    title := "FDIC Consent Order Against ABC Bank"
    institutions := ["ABC Bank"]
    categories := ["regulatory_action"]
    event_date := ⟨2024, 1, 15⟩
    summary := "enforcement action"
    reputational_damage :=
      { nature := ["compliance_failure"], materiality_score := 2,
        drivers := { regulator_involved := ["FDIC"] } }
    amounts := [("penalties_usd", 1000000)]
    sources := [{ title := "Order", publisher := "FDIC",
                  url := "https://orders.fdic.gov/1",
                  date_published := ⟨2024, 1, 16⟩, source_type := "regulator" }] }

/-- First version of the event used by the statistics counterexample. -/
def eventC8First : Event :=
  { event_id := "x", title := "a", institutions := ["B"], categories := ["fine"],
    event_date := ⟨2024, 1, 2⟩,
    reputational_damage :=
      { nature := ["other"], materiality_score := 2,
        drivers := { regulator_involved := ["FDIC"] } }
    amounts := [("penalties_usd", 100)], sources := [] }

/-- Changed re-ingestion of the same event id: different penalties,
categories and regulators. -/
def eventC8Second : Event :=
  { eventC8First with
    categories := ["fraud"]
    amounts := [("penalties_usd", 200)]
    reputational_damage :=
      { nature := ["other"], materiality_score := 3,
        drivers := { regulator_involved := ["SEC"] } } }

/-- State reached by inserting the first version and then upserting the
changed version. -/
def stateC8 : RepoState :=
  (upsert_event (upsert_event ⟨[], []⟩ eventC8First).2 eventC8Second).2

/-- A connector whose middle item fails at the fetch-detail stage. -/
def opsW : ConnectorOps Nat Nat Nat Nat :=
  { discover := Except.ok [0, 1, 2]
    fetch_item_detail := fun i => if i == 1 then Except.error "boom" else Except.ok i
    parse_item := fun r => Except.ok r
    normalize_item := fun p => Except.ok p }

/-- An event dated inside February 2024. -/
def eventFeb : Event := { sampleEvent with event_id := "in-feb", event_date := ⟨2024, 2, 10⟩ }

/-- An event dated outside February 2024. -/
def eventMar : Event := { sampleEvent with event_id := "out-mar", event_date := ⟨2024, 3, 1⟩ }

/-- One connector returning events both inside and outside the month. -/
def connsC7 : List ConnectorRun := [⟨"fdic_edo", Except.ok [eventFeb, eventMar]⟩]

/-- Event data with a one-billion-dollar penalty. -/
def dataC2 : EventData := { penalties_usd := some 1000000000 }

/-! ## Theorems -/

theorem condLoop_eq_if (d : EventData) (s : Nat) (conds : List Cond) :
    condLoop d s conds = if conds.any (evalCond d) then some s else none := by
  induction conds with
  | nil => simp [condLoop]
  | cons c rest ih =>
      simp only [condLoop, List.any_cons]
      by_cases h : evalCond d c = true
      · simp [h]
      · simp only [Bool.not_eq_true] at h
        simp [h, ih]

theorem ruleLoop_eq_find (d : EventData) (rules : List (Nat × List Cond)) :
    ruleLoop d rules = (rules.find? (fun r => r.2.any (evalCond d))).map Prod.fst := by
  induction rules with
  | nil => simp [ruleLoop]
  | cons r rest ih =>
      obtain ⟨s, conds⟩ := r
      simp only [ruleLoop, condLoop_eq_if]
      by_cases h : conds.any (evalCond d) = true
      · rw [List.find?_cons_of_pos _ (by simpa using h)]
        simp [h]
      · simp only [Bool.not_eq_true] at h
        rw [List.find?_cons_of_neg _ (by simp [h])]
        simp [h, ih]

/-- If a rule with score s and a satisfied condition appears after a prefix
of rules whose scores are all at least s, the rule loop yields at least s. -/
theorem ruleLoop_getD_ge (d : EventData) (s : Nat) :
    ∀ (pre : List (Nat × List Cond)), ∀ (post : List (Nat × List Cond)) (conds : List Cond),
      conds.any (evalCond d) = true →
      (∀ r ∈ pre, s ≤ r.1) →
      s ≤ (ruleLoop d (pre ++ (s, conds) :: post)).getD 1 := by
  intro pre
  induction pre with
  | nil =>
      intro post conds hany _
      simp [ruleLoop, condLoop_eq_if, hany]
  | cons r pre' ih =>
      intro post conds hany hall
      obtain ⟨s', conds'⟩ := r
      simp only [List.cons_append, ruleLoop, condLoop_eq_if]
      by_cases h : conds'.any (evalCond d) = true
      · have hs : s ≤ s' := hall (s', conds') (by simp)
        simpa [h] using hs
      · simp only [Bool.not_eq_true] at h
        simp only [h, Bool.false_eq_true, if_false]
        exact ih post conds hany (fun r hr => hall r (by simp [hr]))

/-- C2: the materiality engine scores 5 when the penalty is at least one
billion dollars, at least five million customers are affected, or the
categories carry the bank-failure tag financial_performance; a penalty of at
least one hundred million gives a score of at least 4, at least ten million
at least 3, at least one million at least 2; when no condition of any tier
holds the score is 1; and in general the first rule, in the
highest-score-first order of MATERIALITY_RULES, with any satisfied condition
determines the score. -/
theorem c2_materiality_tiers :
    (∀ (d : EventData) (p : Int), d.penalties_usd = some p → 1000000000 ≤ p →
        calculate_materiality_score d = 5) ∧
    (∀ (d : EventData) (n : Int), d.customers_affected = some n → 5000000 ≤ n →
        calculate_materiality_score d = 5) ∧
    (∀ (d : EventData) (l : List String), d.categories = some l →
        "financial_performance" ∈ l → calculate_materiality_score d = 5) ∧
    (∀ (d : EventData) (p : Int), d.penalties_usd = some p → 100000000 ≤ p →
        4 ≤ calculate_materiality_score d) ∧
    (∀ (d : EventData) (p : Int), d.penalties_usd = some p → 10000000 ≤ p →
        3 ≤ calculate_materiality_score d) ∧
    (∀ (d : EventData) (p : Int), d.penalties_usd = some p → 1000000 ≤ p →
        2 ≤ calculate_materiality_score d) ∧
    (∀ d : EventData, (∀ r ∈ MATERIALITY_RULES, ∀ c ∈ r.2, evalCond d c = false) →
        calculate_materiality_score d = 1) ∧
    (∀ d : EventData, calculate_materiality_score d =
        ((MATERIALITY_RULES.find? (fun r => r.2.any (evalCond d))).map Prod.fst).getD 1) := by
  have hchar : ∀ d : EventData, calculate_materiality_score d =
      ((MATERIALITY_RULES.find? (fun r => r.2.any (evalCond d))).map Prod.fst).getD 1 := by
    intro d
    rw [calculate_materiality_score, ruleLoop_eq_find]
  refine ⟨?_, ?_, ?_, ?_, ?_, ?_, ?_, hchar⟩
  · intro d p h hp
    have hc : evalCond d (Cond.gePenalties 1000000000) = true := by
      simp [evalCond, h, hp]
    simp [calculate_materiality_score, MATERIALITY_RULES, ruleLoop, condLoop, hc]
  · intro d n h hn
    have hc : evalCond d (Cond.geCustomers 5000000) = true := by
      simp [evalCond, h, hn]
    simp only [calculate_materiality_score, MATERIALITY_RULES, ruleLoop, condLoop, hc]
    repeat' split
    all_goals simp_all
  · intro d l h hmem
    have hc : evalCond d (Cond.categoriesContains "financial_performance") = true := by
      simp [evalCond, h, List.elem_iff, hmem]
    simp [calculate_materiality_score, MATERIALITY_RULES, ruleLoop, condLoop, hc]
  · intro d p h hp
    have hc : evalCond d (Cond.gePenalties 100000000) = true := by
      simp [evalCond, h, hp]
    have h4 := ruleLoop_getD_ge d 4
      [(5, [Cond.gePenalties 1000000000, Cond.geCustomers 5000000,
            Cond.categoriesContains "financial_performance",
            Cond.titleContainsAny ["congressional hearing", "ceo resignation scandal"]])]
      [(3, [Cond.gePenalties 10000000, Cond.geCustomers 100000,
            Cond.titleContainsAny ["significant outage", "workforce reduction", "multiple state ag"]]),
       (2, [Cond.gePenalties 1000000, Cond.geCustomers 10000,
            Cond.titleContainsAny ["executive misconduct", "branch closure", "fintech partnership failure"]]),
       (1, [Cond.titleContainsAny ["investigation", "discrimination allegation", "customer service failure"]])]
      [Cond.gePenalties 100000000, Cond.geCustomers 1000000,
       Cond.titleContainsAny ["mass layoff", "esg controversy", "sustained negative press"]]
      (by simp [hc]) (by intro r hr; simp at hr; simp [hr])
    simpa [calculate_materiality_score, MATERIALITY_RULES] using h4
  · intro d p h hp
    have hc : evalCond d (Cond.gePenalties 10000000) = true := by
      simp [evalCond, h, hp]
    have h3 := ruleLoop_getD_ge d 3
      [(5, [Cond.gePenalties 1000000000, Cond.geCustomers 5000000,
            Cond.categoriesContains "financial_performance",
            Cond.titleContainsAny ["congressional hearing", "ceo resignation scandal"]]),
       (4, [Cond.gePenalties 100000000, Cond.geCustomers 1000000,
            Cond.titleContainsAny ["mass layoff", "esg controversy", "sustained negative press"]])]
      [(2, [Cond.gePenalties 1000000, Cond.geCustomers 10000,
            Cond.titleContainsAny ["executive misconduct", "branch closure", "fintech partnership failure"]]),
       (1, [Cond.titleContainsAny ["investigation", "discrimination allegation", "customer service failure"]])]
      [Cond.gePenalties 10000000, Cond.geCustomers 100000,
       Cond.titleContainsAny ["significant outage", "workforce reduction", "multiple state ag"]]
      (by simp [hc]) (by intro r hr; simp at hr; rcases hr with h | h <;> simp [h])
    simpa [calculate_materiality_score, MATERIALITY_RULES] using h3
  · intro d p h hp
    have hc : evalCond d (Cond.gePenalties 1000000) = true := by
      simp [evalCond, h, hp]
    have h2 := ruleLoop_getD_ge d 2
      [(5, [Cond.gePenalties 1000000000, Cond.geCustomers 5000000,
            Cond.categoriesContains "financial_performance",
            Cond.titleContainsAny ["congressional hearing", "ceo resignation scandal"]]),
       (4, [Cond.gePenalties 100000000, Cond.geCustomers 1000000,
            Cond.titleContainsAny ["mass layoff", "esg controversy", "sustained negative press"]]),
       (3, [Cond.gePenalties 10000000, Cond.geCustomers 100000,
            Cond.titleContainsAny ["significant outage", "workforce reduction", "multiple state ag"]])]
      [(1, [Cond.titleContainsAny ["investigation", "discrimination allegation", "customer service failure"]])]
      [Cond.gePenalties 1000000, Cond.geCustomers 10000,
       Cond.titleContainsAny ["executive misconduct", "branch closure", "fintech partnership failure"]]
      (by simp [hc]) (by intro r hr; simp at hr; rcases hr with h | h | h <;> simp [h])
    simpa [calculate_materiality_score, MATERIALITY_RULES] using h2
  · intro d hall
    rw [hchar]
    rw [List.find?_eq_none.mpr]
    · rfl
    · intro r hr
      simp only [Bool.not_eq_true, List.any_eq_false]
      intro c hc
      simpa using hall r hr c hc

/-- Witness for c2_materiality_tiers at a concrete one-billion-dollar
penalty. -/
theorem c2_materiality_tiers_witness :
    calculate_materiality_score dataC2 = 5 :=
  c2_materiality_tiers.1 dataC2 1000000000 rfl (by decide)

theorem lookupFirstSub_eq_find (maps : List (String × String)) (sL : String) :
    lookupFirstSub maps sL = (maps.find? (fun pc => strIn pc.1 sL)).map Prod.snd := by
  induction maps with
  | nil => simp [lookupFirstSub]
  | cons pc rest ih =>
      obtain ⟨pat, cat⟩ := pc
      by_cases h : strIn pat sL = true
      · rw [List.find?_cons_of_pos _ (by simpa using h)]
        simp [lookupFirstSub, h]
      · simp only [Bool.not_eq_true] at h
        rw [List.find?_cons_of_neg _ (by simp [h])]
        simp [lookupFirstSub, h, ih]

/-- No category of the dictionary is the fallback term. -/
theorem category_values_ne_other : ∀ pc ∈ CATEGORY_MAPPINGS, pc.2 ≠ "other" := by decide

/-- C9 counterexample: on the input customer complaint, the code returns the
category of the pattern complaint, which comes first in dictionary insertion
order, not the category of the strictly longer matching pattern customer
complaint the spec promises. -/
theorem c9_counterexample :
    map_category "customer complaint" = "lawsuit" ∧
    specMapCategoryLongest "customer complaint" = "customer_service_crisis" ∧
    strIn "complaint" (pyLower "customer complaint") = true ∧
    strIn "customer complaint" (pyLower "customer complaint") = true ∧
    ("complaint", "lawsuit") ∈ CATEGORY_MAPPINGS ∧
    ("customer complaint", "customer_service_crisis") ∈ CATEGORY_MAPPINGS ∧
    "complaint".length < "customer complaint".length ∧
    map_category "customer complaint" ≠ specMapCategoryLongest "customer complaint" := by
  refine ⟨by decide, by decide, by decide, by decide, by decide, by decide, by decide, by decide⟩

/-- C9 amended: map_category returns the category of the first dictionary
pattern, in insertion order, occurring as a substring of the lowered input,
and returns the designated fallback other exactly when no dictionary pattern
occurs in the input. -/
theorem c9_first_match :
    ∀ s : String,
      map_category s =
        ((CATEGORY_MAPPINGS.find? (fun pc => strIn pc.1 (pyLower s))).map Prod.snd).getD
          "other" ∧
      (map_category s = "other" ↔
        ∀ pc ∈ CATEGORY_MAPPINGS, strIn pc.1 (pyLower s) = false) := by
  intro s
  have hchar : map_category s =
      ((CATEGORY_MAPPINGS.find? (fun pc => strIn pc.1 (pyLower s))).map Prod.snd).getD
        "other" := by
    rw [map_category, lookupFirstSub_eq_find]
    cases h : CATEGORY_MAPPINGS.find? (fun pc => strIn pc.1 (pyLower s)) <;> simp
  refine ⟨hchar, ?_, ?_⟩
  · intro ho
    cases hf : CATEGORY_MAPPINGS.find? (fun pc => strIn pc.1 (pyLower s)) with
    | none =>
        intro pc hmem
        have := List.find?_eq_none.mp hf pc hmem
        simpa using this
    | some pc =>
        exfalso
        have hmem : pc ∈ CATEGORY_MAPPINGS := List.mem_of_find?_eq_some hf
        have : map_category s = pc.2 := by rw [hchar, hf]; rfl
        exact category_values_ne_other pc hmem (by rw [← this, ho])
  · intro hall
    rw [hchar, List.find?_eq_none.mpr (by intro pc hmem; simp [hall pc hmem])]
    rfl

/-- Witness for c9_first_match: an input matching no dictionary pattern maps
to other. -/
theorem c9_first_match_witness :
    map_category "unknown term" = "other" :=
  (c9_first_match "unknown term").2.mpr (by decide)

/-- C3 counterexample: on the spec input the extractor does not return
1000000 as promised; the amount is matched by both the plain-dollar pattern
and the penalty-prefixed pattern, and the two matches are summed. -/
theorem c3_counterexample :
    (extract_money_amounts "civil money penalty of $1,000,000").1 ≠ 1000000 := by decide

/-- C3 amended: on the input the extractor returns the total 2000000 (the
amount counted once by the plain-dollar pattern and once by the
penalty-prefixed pattern) together with an audit string that contains each
literal matched substring. -/
theorem c3_money_extraction :
    extract_money_amounts "civil money penalty of $1,000,000" =
      (2000000, "$1,000,000; penalty of $1,000,000") ∧
    strIn "$1,000,000" (extract_money_amounts "civil money penalty of $1,000,000").2 = true ∧
    strIn "penalty of $1,000,000"
      (extract_money_amounts "civil money penalty of $1,000,000").2 = true := by
  refine ⟨by decide, by decide, by decide⟩

/-- C4: evaluation at the failing inputs.  A request answered 403 on every
attempt is retried to the attempt bound of three and only then surfaced,
not surfaced immediately after one attempt; a 403 followed by a 200 even
succeeds on the second attempt.  A transient 503 is likewise retried up to
three attempts.  The second component of make_request is the number of the
attempt on which the call ended. -/
theorem c4_nontransient_retried :
    make_request (fun _ => HttpOutcome.resp 403) =
      (RequestResult.exhausted (HttpOutcome.resp 403), 3) ∧
    make_request (fun n => if n == 1 then HttpOutcome.resp 403 else HttpOutcome.resp 200) =
      (RequestResult.success 200, 2) ∧
    make_request (fun n => if n ≤ 2 then HttpOutcome.resp 503 else HttpOutcome.resp 200) =
      (RequestResult.success 200, 3) ∧
    make_request (fun _ => HttpOutcome.resp 503) =
      (RequestResult.exhausted (HttpOutcome.resp 503), 3) ∧
    (3 : Nat) ≠ 1 := by
  refine ⟨by decide, by decide, by decide, by decide, by decide⟩

/-- C10: the BankFind enrichment step returns its argument event unchanged
for every lookup oracle, and consequently the scheduler store loop passes
exactly the connector output events, field for field, to upsert_event. -/
theorem c10_enrichment_identity :
    (∀ (lookup : String → Option BankData) (e : Event),
        enrich_event_institutions_async lookup e = e) ∧
    (∀ (lookup : String → Option BankData) (st : RepoState) (evs : List Event),
        (storeLoop lookup st evs).2.2 = evs) := by
  refine ⟨fun _ _ => rfl, fun lookup st evs => ?_⟩
  induction evs generalizing st with
  | nil => rfl
  | cons ev rest ih =>
      simp [storeLoop, enrich_event_institutions_async, ih]

theorem itemLoop_append_error {I R P E : Type} (ops : ConnectorOps I R P E)
    (xs ys : List I) (bad : I) (msg : String)
    (h : itemStep ops bad = Except.error msg) :
    itemLoop ops (xs ++ bad :: ys) = itemLoop ops xs ++ itemLoop ops ys := by
  induction xs with
  | nil => simp [itemLoop, h]
  | cons x rest ih =>
      simp only [List.cons_append, itemLoop]
      cases hx : itemStep ops x <;> simp [ih]

/-- C6: an exception raised while fetching detail for, parsing or
normalizing one discovered item is caught inside the per-item loop: the item
contributes no event, every sibling item is still processed, and the run
returns the events of the remaining items. -/
theorem c6_item_failure_isolated :
    ∀ {I R P E : Type} (ops : ConnectorOps I R P E) (xs ys : List I) (bad : I) (msg : String),
      itemStep ops bad = Except.error msg →
      itemLoop ops (xs ++ bad :: ys) = itemLoop ops xs ++ itemLoop ops ys ∧
      (ops.discover = Except.ok (xs ++ bad :: ys) →
        fetch_updates ops = Except.ok (itemLoop ops xs ++ itemLoop ops ys)) := by
  intro I R P E ops xs ys bad msg h
  have hloop := itemLoop_append_error ops xs ys bad msg h
  exact ⟨hloop, fun hd => by simp [fetch_updates, hd, hloop]⟩

/-- Witness for c6_item_failure_isolated: the middle of three items fails
and the run returns the events of the two siblings. -/
theorem c6_item_failure_isolated_witness :
    itemLoop opsW ([0] ++ 1 :: [2]) = itemLoop opsW [0] ++ itemLoop opsW [2] ∧
    (opsW.discover = Except.ok ([0] ++ 1 :: [2]) →
      fetch_updates opsW = Except.ok (itemLoop opsW [0] ++ itemLoop opsW [2])) :=
  c6_item_failure_isolated opsW [0] [2] 1 "boom" rfl

theorem ofNat_toNat_lower {n : Nat} (h1 : 97 ≤ n) (h2 : n ≤ 122) :
    (Char.ofNat n).toNat = n := by
  interval_cases n <;> decide

theorem lowerChar_not_upper (c : Char) :
    ¬(65 ≤ (lowerChar c).toNat ∧ (lowerChar c).toNat ≤ 90) := by
  unfold lowerChar
  by_cases h : 65 ≤ c.toNat ∧ c.toNat ≤ 90
  · rw [if_pos h, ofNat_toNat_lower (by omega) (by omega)]
    omega
  · rw [if_neg h]
    exact h

/-- Every character of the hyphen-substituted lowered base is a hyphen, an
ASCII lowercase letter or an ASCII digit. -/
theorem mem_subNonAlnum_pyLower {s : String} {a : Char}
    (ha : a ∈ subNonAlnum (pyLower s).data) :
    a = '-' ∨ (97 ≤ a.toNat ∧ a.toNat ≤ 122) ∨ (48 ≤ a.toNat ∧ a.toNat ≤ 57) := by
  simp only [subNonAlnum, pyLower, List.mem_map] at ha
  obtain ⟨b, hb, rfl⟩ := ha
  obtain ⟨c, _, rfl⟩ := hb
  by_cases h : isAsciiAlnum (lowerChar c) = true
  · rw [if_pos h]
    right
    have hnu := lowerChar_not_upper c
    simp only [isAsciiAlnum, Bool.or_eq_true, Bool.and_eq_true, decide_eq_true_eq] at h
    omega
  · rw [if_neg h]
    exact Or.inl rfl

theorem mem_collapseHyphens : ∀ (l : List Char) (a : Char), a ∈ collapseHyphens l → a ∈ l := by
  intro l
  induction l with
  | nil => intro a h; simp [collapseHyphens] at h
  | cons c rest ih =>
      intro a h
      cases rest with
      | nil => simpa [collapseHyphens] using h
      | cons b rest' =>
          simp only [collapseHyphens] at h
          by_cases hcb : (c == '-' && b == '-') = true
          · rw [if_pos hcb] at h
            exact List.mem_cons_of_mem c (ih a h)
          · rw [if_neg hcb] at h
            rcases List.mem_cons.mp h with rfl | h'
            · exact List.mem_cons_self _ _
            · exact List.mem_cons_of_mem c (ih a h')

theorem head?_collapseHyphens : ∀ l : List Char, (collapseHyphens l).head? = l.head? := by
  intro l
  induction l with
  | nil => rfl
  | cons c rest ih =>
      cases rest with
      | nil => rfl
      | cons b rest' =>
          simp only [collapseHyphens]
          by_cases hcb : (c == '-' && b == '-') = true
          · rw [if_pos hcb, ih]
            have hcb' : c = '-' ∧ b = '-' := by simpa using hcb
            simp [hcb'.1, hcb'.2]
          · rw [if_neg hcb]
            rfl

theorem collapseHyphens_noDD : ∀ l : List Char,
    hasDoubleHyphen (collapseHyphens l) = false := by
  intro l
  induction l with
  | nil => rfl
  | cons c rest ih =>
      cases rest with
      | nil => rfl
      | cons b rest' =>
          simp only [collapseHyphens]
          by_cases hcb : (c == '-' && b == '-') = true
          · rw [if_pos hcb]
            exact ih
          · rw [if_neg hcb]
            cases hX : collapseHyphens (b :: rest') with
            | nil => rfl
            | cons x xs =>
                have hx : x = b := by
                  have hh := head?_collapseHyphens (b :: rest')
                  rw [hX] at hh
                  simpa using hh
                have ih' : hasDoubleHyphen (x :: xs) = false := by
                  rw [← hX]
                  exact ih
                have hcb' : (c == '-' && x == '-') = false := by
                  rw [hx]
                  simpa using hcb
                simp [hasDoubleHyphen, hcb', ih']

theorem hasDD_cons_false {a : Char} {l : List Char}
    (h : hasDoubleHyphen (a :: l) = false) : hasDoubleHyphen l = false := by
  cases l with
  | nil => rfl
  | cons b rest =>
      simp only [hasDoubleHyphen, Bool.or_eq_false_iff] at h
      exact h.2

theorem hasDD_append_left : ∀ (l t : List Char),
    hasDoubleHyphen (l ++ t) = false → hasDoubleHyphen l = false := by
  intro l t
  induction l with
  | nil => intro _; rfl
  | cons a l' ih =>
      intro h
      cases l' with
      | nil => rfl
      | cons b rest =>
          simp only [List.cons_append, hasDoubleHyphen, Bool.or_eq_false_iff] at h ⊢
          refine ⟨h.1, ?_⟩
          exact ih (by simpa using h.2)

theorem hasDD_prefix_false {l₁ l : List Char} (hp : l₁ <+: l)
    (h : hasDoubleHyphen l = false) : hasDoubleHyphen l₁ = false := by
  obtain ⟨t, rfl⟩ := hp
  exact hasDD_append_left l₁ t h

theorem hasDD_suffix_false {l₂ l : List Char} (hs : l₂ <:+ l)
    (h : hasDoubleHyphen l = false) : hasDoubleHyphen l₂ = false := by
  obtain ⟨s, rfl⟩ := hs
  induction s with
  | nil => simpa using h
  | cons c s' ih => exact ih (hasDD_cons_false (by simpa using h))

theorem head_dropWhile_not {p : Char → Bool} :
    ∀ (l : List Char) (x : Char), (l.dropWhile p).head? = some x → p x = false := by
  intro l
  induction l with
  | nil => intro x h; simp [List.dropWhile] at h
  | cons c cs ih =>
      intro x h
      by_cases hc : p c = true
      · rw [List.dropWhile_cons, if_pos hc] at h
        exact ih x h
      · rw [List.dropWhile_cons, if_neg hc] at h
        simp only [List.head?_cons, Option.some.injEq] at h
        subst h
        simpa using hc

/-- C5: generate_event_id is deterministic, a pure function of source name,
external id and event date (wall-clock time is not an input); on the
concrete input of the spec it returns the expected kebab-case id; and for
every input the returned id contains only hyphens, ASCII lowercase letters
and digits (by codepoint), contains no two adjacent hyphens, and neither
starts nor ends with a hyphen. -/
theorem c5_generate_event_id :
    (∀ d : Date, generate_event_id "fdic_edo" "2024-001" d =
        generate_event_id "fdic_edo" "2024-001" d) ∧
    generate_event_id "fdic_edo" "2024-001" ⟨2024, 1, 15⟩ = "fdic-edo-2024-001-2024-01-15" ∧
    (∀ (source_name external_id : String) (d : Date),
      (∀ c ∈ (generate_event_id source_name external_id d).data,
          c = '-' ∨ (97 ≤ c.toNat ∧ c.toNat ≤ 122) ∨ (48 ≤ c.toNat ∧ c.toNat ≤ 57)) ∧
      hasDoubleHyphen (generate_event_id source_name external_id d).data = false ∧
      (generate_event_id source_name external_id d).data.head? ≠ some '-' ∧
      (generate_event_id source_name external_id d).data.getLast? ≠ some '-') := by
  refine ⟨fun _ => rfl, by decide, ?_⟩
  intro sn ex d
  have hdata : (generate_event_id sn ex d).data =
      stripHyphens (collapseHyphens
        (subNonAlnum (pyLower (sn ++ ":" ++ ex ++ ":" ++ isoformat d)).data)) := rfl
  set L := subNonAlnum (pyLower (sn ++ ":" ++ ex ++ ":" ++ isoformat d)).data with hLdef
  set L' := collapseHyphens L with hL'def
  have htdef : stripHyphens L' =
      ((L'.dropWhile (fun c => c == '-')).reverse.dropWhile (fun c => c == '-')).reverse := rfl
  set t := L'.dropWhile (fun c => c == '-') with htdef2
  set Y := t.reverse.dropWhile (fun c => c == '-') with hYdef
  have hts : t <:+ L' := List.dropWhile_suffix _
  have hYs : Y <:+ t.reverse := List.dropWhile_suffix _
  have hpre : Y.reverse <+: t := by
    rw [← List.reverse_reverse t] at hYs
    exact List.reverse_suffix.mp (by simpa using hYs)
  have hres : (generate_event_id sn ex d).data = Y.reverse := hdata.trans htdef
  refine ⟨?_, ?_, ?_, ?_⟩
  · intro c hc
    rw [hres] at hc
    have h1 : c ∈ t := hpre.subset (by simpa using hc)
    have h2 : c ∈ L' := hts.subset h1
    exact mem_subNonAlnum_pyLower (mem_collapseHyphens L c h2)
  · rw [hres]
    exact hasDD_prefix_false hpre (hasDD_suffix_false hts (collapseHyphens_noDD L))
  · rw [hres]
    cases hY : Y.reverse with
    | nil => simp
    | cons x xs =>
        obtain ⟨t', ht'⟩ := hpre
        rw [hY] at ht'
        have hxt : t.head? = some x := by rw [← ht']; rfl
        have hx : (fun c => c == '-') x = false := head_dropWhile_not L' x hxt
        simp only [List.head?_cons, ne_eq, Option.some.injEq]
        intro hcontr
        subst hcontr
        simp at hx
  · rw [hres, List.getLast?_reverse]
    cases hY : Y.head? with
    | none => simp
    | some y =>
        have hy : (fun c => c == '-') y = false := head_dropWhile_not t.reverse y hY
        simp only [ne_eq, Option.some.injEq]
        intro hcontr
        subst hcontr
        simp at hy

/-- Witness for c5_generate_event_id: the concrete id has no double hyphen,
and its first character f is in the allowed class. -/
theorem c5_generate_event_id_witness :
    hasDoubleHyphen (generate_event_id "fdic_edo" "2024-001" ⟨2024, 1, 15⟩).data = false ∧
    ('f' = '-' ∨ (97 ≤ 'f'.toNat ∧ 'f'.toNat ≤ 122) ∨ (48 ≤ 'f'.toNat ∧ 'f'.toNat ≤ 57)) :=
  ⟨(c5_generate_event_id.2.2 "fdic_edo" "2024-001" ⟨2024, 1, 15⟩).2.1,
   (c5_generate_event_id.2.2 "fdic_edo" "2024-001" ⟨2024, 1, 15⟩).1 'f' (by decide)⟩

theorem find?_append_of_none {α : Type} (p : α → Bool) :
    ∀ (l₁ l₂ : List α), l₁.find? p = none → (l₁ ++ l₂).find? p = l₂.find? p := by
  intro l₁
  induction l₁ with
  | nil => intro l₂ _; simp
  | cons a l' ih =>
      intro l₂ h
      by_cases hpa : p a = true
      · rw [List.find?_cons_of_pos _ hpa] at h
        exact absurd h (by simp)
      · rw [List.find?_cons_of_neg _ (by simpa using hpa)] at h
        rw [List.cons_append, List.find?_cons_of_neg _ (by simpa using hpa)]
        exact ih l₂ h

theorem find?_map_update (eid pl : String) :
    ∀ l : List EventRow, (∃ r ∈ l, r.event_id = eid) →
      ((l.map (fun r => if r.event_id == eid then { r with payload := pl } else r)).find?
          (fun r => r.event_id == eid)).map (fun r => r.payload) = some pl := by
  intro l
  induction l with
  | nil => intro h; simp at h
  | cons r rest ih =>
      intro hex
      by_cases h : r.event_id = eid
      · simp only [List.map_cons]
        rw [if_pos (by simpa using h)]
        rw [List.find?_cons_of_pos _ (by simpa using h)]
        rfl
      · simp only [List.map_cons]
        rw [if_neg (by simpa using h)]
        rw [List.find?_cons_of_neg _ (by simpa using h)]
        apply ih
        rcases hex with ⟨r', hr', he⟩
        rcases List.mem_cons.mp hr' with rfl | hmem
        · exact absurd he h
        · exact ⟨r', hmem, he⟩

/-- After any upsert of an event, the stored payload under its id is its
serialization. -/
theorem lookupPayload_after_upsert (st : RepoState) (e : Event) :
    lookupPayload (upsert_event st e).2 e.event_id = some (serializeEvent e) := by
  cases hf : st.events.find? (fun r => r.event_id == e.event_id) with
  | some row =>
      by_cases hp : (row.payload == serializeEvent e) = true
      · have hpe : row.payload = serializeEvent e := by simpa using hp
        simp only [upsert_event, hf, hp, if_true]
        simp [lookupPayload, hf, hpe]
      · simp only [upsert_event, hf]
        rw [if_neg hp]
        have hmem : row ∈ st.events := List.mem_of_find?_eq_some hf
        have hid : row.event_id = e.event_id := by simpa using List.find?_some hf
        exact find?_map_update e.event_id (serializeEvent e) st.events ⟨row, hmem, hid⟩
  | none =>
      simp only [upsert_event, hf]
      show ((st.events ++ [rowOfEvent e]).find?
          (fun r => r.event_id == e.event_id)).map (fun r => r.payload) =
        some (serializeEvent e)
      rw [find?_append_of_none _ st.events [rowOfEvent e] hf]
      rw [List.find?_cons_of_pos _ (by simp [rowOfEvent])]
      rfl

/-- C1: starting from any repository state that does not already store the
byte-identical payload of the event under its id, the first upsert returns
true, the second upsert of the same event returns false, and the repository
state after the second call, its events row and sources rows included, is
exactly the state after the first call: the second call writes nothing. -/
theorem c1_upsert_idempotent :
    ∀ (st : RepoState) (e : Event),
      lookupPayload st e.event_id ≠ some (serializeEvent e) →
      (upsert_event st e).1 = true ∧
      (upsert_event (upsert_event st e).2 e).1 = false ∧
      (upsert_event (upsert_event st e).2 e).2 = (upsert_event st e).2 := by
  intro st e hne
  have hfirst : (upsert_event st e).1 = true := by
    cases hf : st.events.find? (fun r => r.event_id == e.event_id) with
    | some row =>
        have hpne : ¬(row.payload == serializeEvent e) = true := by
          intro hp
          apply hne
          have hpe : row.payload = serializeEvent e := by simpa using hp
          simp [lookupPayload, hf, hpe]
        simp [upsert_event, hf, hpne]
    | none => simp [upsert_event, hf]
  have hlk := lookupPayload_after_upsert st e
  obtain ⟨row', hrow', hpl⟩ : ∃ row',
      (upsert_event st e).2.events.find? (fun r => r.event_id == e.event_id) = some row' ∧
        row'.payload = serializeEvent e := by
    unfold lookupPayload at hlk
    cases hf1 : (upsert_event st e).2.events.find? (fun r => r.event_id == e.event_id) with
    | none => rw [hf1] at hlk; simp at hlk
    | some row' =>
        rw [hf1] at hlk
        exact ⟨row', rfl, by simpa using hlk⟩
  have hsec : upsert_event (upsert_event st e).2 e = (false, (upsert_event st e).2) := by
    set st1 := (upsert_event st e).2 with hst1
    simp only [upsert_event, hrow', hpl]
    simp
  exact ⟨hfirst, by rw [hsec], by rw [hsec]⟩

/-- Witness for c1_upsert_idempotent: upserting the sample event twice into
the empty repository. -/
theorem c1_upsert_idempotent_witness :
    (upsert_event ⟨[], []⟩ sampleEvent).1 = true ∧
    (upsert_event (upsert_event ⟨[], []⟩ sampleEvent).2 sampleEvent).1 = false ∧
    (upsert_event (upsert_event ⟨[], []⟩ sampleEvent).2 sampleEvent).2 =
      (upsert_event ⟨[], []⟩ sampleEvent).2 :=
  c1_upsert_idempotent ⟨[], []⟩ sampleEvent (by simp [lookupPayload])

/-- Upserting events with fresh, pairwise distinct ids appends exactly their
insert-time rows to the events table. -/
theorem insertAll_events :
    ∀ (evs : List Event) (st : RepoState),
      (∀ e ∈ evs, ∀ r ∈ st.events, r.event_id ≠ e.event_id) →
      (evs.map (fun e => e.event_id)).Nodup →
      (insertAll evs st).events = st.events ++ evs.map rowOfEvent := by
  intro evs
  induction evs with
  | nil => intro st _ _; simp [insertAll]
  | cons e rest ih =>
      intro st hfresh hnd
      have hnd' : (e.event_id ∉ rest.map (fun e => e.event_id)) ∧
          (rest.map (fun e => e.event_id)).Nodup := by
        rw [List.map_cons] at hnd
        exact List.nodup_cons.mp hnd
      have hf : st.events.find? (fun r => r.event_id == e.event_id) = none := by
        apply List.find?_eq_none.mpr
        intro r hr
        simpa using hfresh e (by simp) r hr
      have hstep : (upsert_event st e).2.events = st.events ++ [rowOfEvent e] := by
        simp [upsert_event, hf, upsert_sources]
      have hins : insertAll (e :: rest) st = insertAll rest (upsert_event st e).2 := rfl
      rw [hins, ih (upsert_event st e).2 ?fresh hnd'.2, hstep]
      · simp
      case fresh =>
        intro e' he' r hr
        rw [hstep] at hr
        rcases List.mem_append.mp hr with hr | hr
        · exact hfresh e' (by simp [he']) r hr
        · simp only [List.mem_singleton] at hr
          subst hr
          intro hEq
          apply hnd'.1
          have : e.event_id = e'.event_id := hEq
          rw [this]
          exact List.mem_map_of_mem _ he'

/-- C8 amended: get_statistics aggregates from the denormalized columns
written at insert time, so for insert-only histories (pairwise distinct ids
into an empty store) the reported count, penalty total and histograms agree
with the ingested events; the update path of upsert_event rewrites only the
payload, so after an update of a stored event the statistics keep the
insert-time values and can disagree with the stored payloads. -/
theorem c8_statistics_insert_only :
    ∀ evs : List Event, (evs.map (fun e => e.event_id)).Nodup →
      (get_statistics (insertAll evs ⟨[], []⟩)).total_events = evs.length ∧
      (get_statistics (insertAll evs ⟨[], []⟩)).total_penalties_usd =
        (evs.map (fun e => amountsGet e.amounts "penalties_usd" 0)).sum ∧
      (∀ c, category_distribution (insertAll evs ⟨[], []⟩) c =
          (evs.map (fun e => e.categories.count c)).sum) ∧
      (∀ g, regulator_distribution (insertAll evs ⟨[], []⟩) g =
          (evs.map
            (fun e => e.reputational_damage.drivers.regulator_involved.count g)).sum) := by
  intro evs hnd
  have hev : (insertAll evs ⟨[], []⟩).events = evs.map rowOfEvent := by
    have h := insertAll_events evs ⟨[], []⟩ (by intro e _ r hr; simp at hr) hnd
    simpa using h
  refine ⟨?_, ?_, ?_, ?_⟩
  · simp [get_statistics, hev]
  · simp only [get_statistics, hev, List.map_map]
    rfl
  · intro c
    simp only [category_distribution, hev, List.map_map]
    rfl
  · intro g
    simp only [regulator_distribution, hev, List.map_map]
    rfl

/-- Witness for c8_statistics_insert_only: a one-event insert-only history. -/
theorem c8_statistics_insert_only_witness :
    (get_statistics (insertAll [eventC8First] ⟨[], []⟩)).total_penalties_usd =
      ([eventC8First].map (fun e => amountsGet e.amounts "penalties_usd" 0)).sum :=
  (c8_statistics_insert_only [eventC8First] (by decide)).2.1

/-- C8 counterexample: after upserting a changed version of a stored event,
the stored payload is the new serialization with penalties 200 and the
category fraud, but get_statistics still reports the insert-time penalty
total 100, counts no fraud event and counts one fine event: the statistics
are read from the denormalized columns, not recomputed from the stored
payloads. -/
theorem c8_counterexample :
    lookupPayload stateC8 "x" = some (serializeEvent eventC8Second) ∧
    amountsGet eventC8Second.amounts "penalties_usd" 0 = 200 ∧
    (get_statistics stateC8).total_penalties_usd = 100 ∧
    (get_statistics stateC8).total_penalties_usd ≠
      amountsGet eventC8Second.amounts "penalties_usd" 0 ∧
    eventC8Second.categories = ["fraud"] ∧
    category_distribution stateC8 "fraud" = 0 ∧
    category_distribution stateC8 "fine" = 1 ∧
    regulator_distribution stateC8 "SEC" = 0 := by
  refine ⟨by decide, by decide, by decide, by decide, by decide, by decide, by decide, by decide⟩

/-- The store loop passes its input events, unchanged by enrichment, to
upsert_event. -/
theorem storeLoop_trace (lookup : String → Option BankData) :
    ∀ (evs : List Event) (st : RepoState), (storeLoop lookup st evs).2.2 = evs := by
  intro evs
  induction evs with
  | nil => intro st; rfl
  | cons ev rest ih =>
      intro st
      simp [storeLoop, enrich_event_institutions_async, ih]

/-- Every event the backfill loop passes to upsert_event is dated inside the
requested window. -/
theorem backfillGo_trace (lookup : String → Option BankData) (startD endD : Date) :
    ∀ (conns : List ConnectorRun) (st : RepoState),
      ∀ ev ∈ (backfillGo lookup startD endD st conns).2.2,
        inPeriod startD endD ev = true := by
  intro conns
  induction conns with
  | nil => intro st ev hev; simp [backfillGo] at hev
  | cons c rest ih =>
      intro st ev hev
      simp only [backfillGo] at hev
      by_cases hname : (c.name == "ffiec_bankfind") = true
      · rw [if_pos hname] at hev
        exact ih st ev hev
      · rw [if_neg hname] at hev
        cases hfc : c.fetched with
        | error msg =>
            rw [hfc] at hev
            exact ih st ev hev
        | ok evs =>
            rw [hfc] at hev
            rcases List.mem_append.mp hev with h1 | h2
            · rw [storeLoop_trace] at h1
              exact List.of_mem_filter h1
            · exact ih _ ev h2

/-- For every connector of the run that is not the enrichment-only BankFind
entry and whose fetch succeeded, the report lists its name with the fetched
count and the size of the month-filtered subset. -/
theorem backfillGo_report (lookup : String → Option BankData) (startD endD : Date) :
    ∀ (conns : List ConnectorRun) (st : RepoState) (c : ConnectorRun),
      c ∈ conns → c.name ≠ "ffiec_bankfind" → ∀ evs, c.fetched = Except.ok evs →
      ∃ rep, (c.name, rep) ∈ (backfillGo lookup startD endD st conns).1 ∧
        rep.events_fetched = evs.length ∧
        rep.events_in_period = (evs.filter (inPeriod startD endD)).length := by
  intro conns
  induction conns with
  | nil => intro st c hc; simp at hc
  | cons c0 rest ih =>
      intro st c hc hname evs hfetch
      simp only [backfillGo]
      by_cases hname0 : (c0.name == "ffiec_bankfind") = true
      · rw [if_pos hname0]
        rcases List.mem_cons.mp hc with rfl | hmem
        · exact absurd (by simpa using hname0) hname
        · exact ih st c hmem hname evs hfetch
      · rw [if_neg hname0]
        rcases List.mem_cons.mp hc with rfl | hmem
        · rw [hfetch]
          refine ⟨⟨evs.length, (evs.filter (inPeriod startD endD)).length,
            (storeLoop lookup st (evs.filter (inPeriod startD endD))).1, true⟩, ?_, rfl, rfl⟩
          simp
        · cases hfc : c0.fetched with
          | error msg =>
              obtain ⟨rep, hrep, h1, h2⟩ := ih st c hmem hname evs hfetch
              exact ⟨rep, by simp [hrep], h1, h2⟩
          | ok evs0 =>
              obtain ⟨rep, hrep, h1, h2⟩ :=
                ih (storeLoop lookup st (evs0.filter (inPeriod startD endD))).2.1
                  c hmem hname evs hfetch
              exact ⟨rep, by simp [hrep], h1, h2⟩

/-- C7: run_monthly_backfill passes to upsert_event only events dated inside
the requested month, and for each non-enrichment connector whose fetch
succeeded the report carries events_in_period equal to the size of the
month-filtered subset of its fetched events; whenever the connector returned
an event dated outside the month, events_in_period is strictly less than
events_fetched. -/
theorem c7_monthly_backfill_filters :
    ∀ (lookup : String → Option BankData) (year month : Nat)
      (conns : List ConnectorRun) (st : RepoState),
      (∀ ev ∈ (run_monthly_backfill lookup year month conns st).2.2,
          inPeriod (backfillStart year month) (backfillEnd year month) ev = true) ∧
      (∀ c ∈ conns, c.name ≠ "ffiec_bankfind" → ∀ evs, c.fetched = Except.ok evs →
        ∃ rep, (c.name, rep) ∈ (run_monthly_backfill lookup year month conns st).1 ∧
          rep.events_fetched = evs.length ∧
          rep.events_in_period =
            (evs.filter (inPeriod (backfillStart year month) (backfillEnd year month))).length ∧
          ((∃ ev ∈ evs,
              inPeriod (backfillStart year month) (backfillEnd year month) ev = false) →
            rep.events_in_period < rep.events_fetched)) := by
  intro lookup year month conns st
  constructor
  · exact backfillGo_trace lookup _ _ conns st
  · intro c hc hname evs hfetch
    obtain ⟨rep, hrep, h1, h2⟩ :=
      backfillGo_report lookup (backfillStart year month) (backfillEnd year month)
        conns st c hc hname evs hfetch
    refine ⟨rep, hrep, h1, h2, ?_⟩
    rintro ⟨ev, hev, hbad⟩
    rw [h1, h2]
    apply List.length_filter_lt_length_iff_exists.mpr
    exact ⟨ev, hev, by simp [hbad]⟩

/-- Witness for c7_monthly_backfill_filters: one connector returning one
February 2024 event and one March 2024 event during a February 2024
backfill. -/
theorem c7_monthly_backfill_filters_witness :
    (∀ ev ∈ (run_monthly_backfill (fun _ => none) 2024 2 connsC7 ⟨[], []⟩).2.2,
        inPeriod (backfillStart 2024 2) (backfillEnd 2024 2) ev = true) ∧
    ∃ rep, ("fdic_edo", rep) ∈ (run_monthly_backfill (fun _ => none) 2024 2 connsC7 ⟨[], []⟩).1 ∧
      rep.events_fetched = [eventFeb, eventMar].length ∧
      rep.events_in_period =
        ([eventFeb, eventMar].filter
          (inPeriod (backfillStart 2024 2) (backfillEnd 2024 2))).length ∧
      rep.events_in_period < rep.events_fetched := by
  have h := c7_monthly_backfill_filters (fun _ => none) 2024 2 connsC7 ⟨[], []⟩
  refine ⟨h.1, ?_⟩
  obtain ⟨rep, hrep, h1, h2, h3⟩ :=
    h.2 ⟨"fdic_edo", Except.ok [eventFeb, eventMar]⟩ (by simp [connsC7]) (by decide)
      [eventFeb, eventMar] rfl
  exact ⟨rep, hrep, h1, h2, h3 ⟨eventMar, by simp, by decide⟩⟩

end BankRep
